import Mathlib

/-!
Verification of the storage-router core of the manga image API.

Paths are modelled as `List Char` (Python `str`).  Each definition mirrors
one function of the source tree; the namespaces follow the modules:

* `StorageGroups`  — `app/services/storage_group_service.py` (path codec,
  quota tracker, manual group switch).
* `SettingsModel`  — the path helpers of `app/core/base.py` (`Settings`),
  with the default `GROUP2_PATH_PREFIX = "@"`.
* `MultiRemote`    — `app/services/multi_remote_service.py` (remote health
  tracking and load-balanced selection).
* `Rclone`         — `app/services/rclone_service.py` (environment scrub).
* `Proxy`          — the image-proxy read pipeline of
  `app/api/v1/admin_endpoints.py`.
-/

namespace StorageGroups

/-- Decimal digits of `n`, most significant first, as characters; fuel-based
so that it unfolds by `rfl`.  Mirrors Python `str(n)` for the digits part. -/
def natReprAux : Nat → Nat → List Char
  | 0, _ => []
  | fuel + 1, n =>
      if n = 0 then []
      else natReprAux fuel (n / 10) ++ [Char.ofNat (48 + n % 10)]

/-- Python `str(n)` for a natural number `n`. -/
def natRepr (n : Nat) : List Char :=
  if n = 0 then ['0'] else natReprAux n n

/-- Numeric value of a decimal digit character (Python `int` on one char). -/
def digitVal (c : Char) : Nat := c.toNat - 48

/-- Python `int(s)` on a nonempty string of decimal digits. -/
def parseNat (ds : List Char) : Nat :=
  ds.foldl (fun acc c => 10 * acc + digitVal c) 0

/-- Model of `_GROUP_PREFIX_RE.match(path)` for the anchored regex
`^@(\d+)/`: on success returns the parsed group number together with the
remainder of the path after the matched prefix (`path[m.end():]`). -/
def groupPrefixMatch : List Char → Option (Nat × List Char)
  | [] => none
  | c :: rest =>
      if c = '@' then
        if rest.takeWhile Char.isDigit = [] then none
        else
          match rest.dropWhile Char.isDigit with
          | d :: tail =>
              if d = '/' then some (parseNat (rest.takeWhile Char.isDigit), tail)
              else none
          | [] => none
      else none

/-- `get_group_prefix` (storage_group_service.py): `""` for group ≤ 1,
`"@N/"` otherwise. -/
def get_group_prefix (group : Nat) : List Char :=
  if group ≤ 1 then [] else '@' :: (natRepr group ++ ['/'])

/-- `get_group_for_path` (storage_group_service.py). -/
def get_group_for_path (path : List Char) : Nat :=
  if path = [] then 1
  else
    match groupPrefixMatch path with
    | some (g, _) => g
    | none => if path.head? = some '@' then 2 else 1

/-- `clean_path` (storage_group_service.py): strip a `@N/` prefix, else a
single legacy `@`, else return the path unchanged. -/
def clean_path (path : List Char) : List Char :=
  if path = [] then path
  else
    match groupPrefixMatch path with
    | some (_, rest) => rest
    | none => if path.head? = some '@' then path.tail else path

/-- `mark_as_group` (storage_group_service.py): re-clean the path, then
prepend the prefix of the target group. -/
def mark_as_group (path : List Char) (group : Nat) : List Char :=
  get_group_prefix group ++ clean_path path

lemma natReprAux_ne_nil {fuel n : Nat} (hn : n ≠ 0) (hf : fuel ≠ 0) :
    natReprAux fuel n ≠ [] := by
  cases fuel with
  | zero => exact absurd rfl hf
  | succ f =>
      simp only [natReprAux, hn, if_false]
      exact List.append_ne_nil_of_right_ne_nil _ (by simp)

lemma natReprAux_digits {fuel n : Nat} :
    ∀ c ∈ natReprAux fuel n, c.isDigit = true := by
  induction fuel generalizing n with
  | zero => intro c hc; simp [natReprAux] at hc
  | succ f ih =>
      intro c hc
      by_cases hn : n = 0
      · simp [natReprAux, hn] at hc
      · simp only [natReprAux, hn, if_false, List.mem_append,
          List.mem_singleton] at hc
        rcases hc with hc | hc
        · exact ih _ hc
        · subst hc
          have h10 : n % 10 < 10 := Nat.mod_lt _ (by norm_num)
          interval_cases h : n % 10 <;> decide

lemma parseNat_append_digit (xs : List Char) (c : Char) (a : Nat) :
    (xs ++ [c]).foldl (fun acc d => 10 * acc + digitVal d) a =
      10 * (xs.foldl (fun acc d => 10 * acc + digitVal d) a) + digitVal c := by
  simp [List.foldl_append]

lemma digitVal_ofNat {d : Nat} (hd : d < 10) :
    digitVal (Char.ofNat (48 + d)) = d := by
  interval_cases d <;> decide

lemma parseNat_natReprAux {fuel n : Nat} (h : n ≤ fuel) (a : Nat) :
    (natReprAux fuel n).foldl (fun acc d => 10 * acc + digitVal d) a =
      a * 10 ^ (natReprAux fuel n).length + n := by
  induction fuel generalizing n a with
  | zero =>
      have : n = 0 := Nat.le_zero.mp h
      simp [natReprAux, this]
  | succ f ih =>
      by_cases hn : n = 0
      · simp [natReprAux, hn]
      · have hdiv : n / 10 ≤ f := by
          have hlt : n / 10 < n := Nat.div_lt_self (Nat.pos_of_ne_zero hn) (by norm_num)
          omega
        simp only [natReprAux, hn, if_false]
        rw [parseNat_append_digit, ih hdiv a,
          digitVal_ofNat (Nat.mod_lt _ (by norm_num))]
        rw [List.length_append, List.length_singleton]
        ring_nf
        omega

lemma parseNat_natRepr (n : Nat) : parseNat (natRepr n) = n := by
  by_cases hn : n = 0
  · simp [natRepr, hn, parseNat, digitVal]
  · have := parseNat_natReprAux (Nat.le_refl n) 0
    simpa [natRepr, hn, parseNat] using this

lemma takeWhile_append_of_all {p : Char → Bool} {xs : List Char} {y : Char}
    (ys : List Char) (hall : ∀ c ∈ xs, p c = true) (hy : p y = false) :
    (xs ++ y :: ys).takeWhile p = xs ∧ (xs ++ y :: ys).dropWhile p = y :: ys := by
  induction xs with
  | nil => simp [List.takeWhile, List.dropWhile, hy]
  | cons x xs ih =>
      have hx : p x = true := hall x (List.mem_cons_self _ _)
      have hrest := ih (fun c hc => hall c (List.mem_cons_of_mem _ hc))
      simp [List.takeWhile, List.dropWhile, hx, hrest.1, hrest.2]

/-- The regex matcher recovers exactly the components laid down by
`get_group_prefix` for groups ≥ 2. -/
lemma groupPrefixMatch_marked {g : Nat} (hg : 2 ≤ g) (r : List Char) :
    groupPrefixMatch ('@' :: (natRepr g ++ '/' :: r)) = some (g, r) := by
  have hgne : g ≠ 0 := by omega
  have hdigits : ∀ c ∈ natRepr g, c.isDigit = true := by
    intro c hc
    simp only [natRepr, hgne, if_false] at hc
    exact natReprAux_digits c hc
  have hne : natRepr g ≠ [] := by
    simp only [natRepr, hgne, if_false]
    exact natReprAux_ne_nil hgne hgne
  have hslash : Char.isDigit '/' = false := by decide
  have hsplit := takeWhile_append_of_all (p := Char.isDigit) r hdigits hslash
  simp only [List.append_assoc, List.cons_append, List.nil_append] at hsplit ⊢
  simp [groupPrefixMatch, hsplit.1, hsplit.2, hne, parseNat_natRepr]

lemma groupPrefixMatch_eq_none_of_head {path : List Char}
    (h : path.head? ≠ some '@') : groupPrefixMatch path = none := by
  cases path with
  | nil => rfl
  | cons c cs =>
      simp only [List.head?] at h
      have hc : c ≠ '@' := fun hcc => h (by rw [hcc])
      simp [groupPrefixMatch, hc]

lemma clean_path_of_no_at {path : List Char} (h : path.head? ≠ some '@') :
    clean_path path = path := by
  by_cases hp : path = []
  · simp [clean_path, hp]
  · simp [clean_path, hp, groupPrefixMatch_eq_none_of_head h, h]

lemma mark_as_group_of_no_at {r : List Char} (h : r.head? ≠ some '@')
    (g : Nat) : mark_as_group r g = get_group_prefix g ++ r := by
  simp [mark_as_group, clean_path_of_no_at h]

lemma prefix_append_eq {g : Nat} (hg : 2 ≤ g) (r : List Char) :
    get_group_prefix g ++ r = '@' :: (natRepr g ++ '/' :: r) := by
  have : ¬ g ≤ 1 := by omega
  simp [ get_group_prefix, this]

lemma clean_path_prefix_append {g : Nat} {r : List Char} (hg : 1 ≤ g)
    (h : r.head? ≠ some '@') : clean_path ( get_group_prefix g ++ r) = r := by
  by_cases hg1 : g ≤ 1
  · simp [ get_group_prefix, hg1, clean_path_of_no_at h]
  · have hg2 : 2 ≤ g := by omega
    rw [prefix_append_eq hg2]
    simp [clean_path, groupPrefixMatch_marked hg2]

lemma group_for_prefix_append {g : Nat} {r : List Char} (hg : 1 ≤ g)
    (h : r.head? ≠ some '@') :
    get_group_for_path ( get_group_prefix g ++ r) = g := by
  by_cases hg1 : g ≤ 1
  · have hg' : g = 1 := by omega
    subst hg'
    simp only [ get_group_prefix, le_refl, if_true, List.nil_append]
    by_cases hr : r = []
    · simp [get_group_for_path, hr]
    · simp [get_group_for_path, hr, groupPrefixMatch_eq_none_of_head h, h]
  · have hg2 : 2 ≤ g := by omega
    rw [prefix_append_eq hg2]
    simp [get_group_for_path, groupPrefixMatch_marked hg2]

end StorageGroups

/-- C2: for every relative path `r` that begins with neither `@` nor `/` and
every group `N ≥ 1`, `clean_path (mark_as_group r N) = r` and
`get_group_for_path (mark_as_group r N) = N`. -/
theorem c2_path_roundtrip (r : List Char) (N : Nat)
    (hat : r.head? ≠ some '@') (hslash : r.head? ≠ some '/') (hN : 1 ≤ N) :
    StorageGroups.clean_path (StorageGroups.mark_as_group r N) = r ∧
    StorageGroups.get_group_for_path (StorageGroups.mark_as_group r N) = N := by
  rw [StorageGroups.mark_as_group_of_no_at hat]
  exact ⟨StorageGroups.clean_path_prefix_append hN hat,
    StorageGroups.group_for_prefix_append hN hat⟩

/-- Witness for C2 at `r = "x/y.jpg"`, `N = 2`. -/
theorem c2_path_roundtrip_witness :
    ("x/y.jpg".toList.head? ≠ some '@') ∧
    ("x/y.jpg".toList.head? ≠ some '/') ∧
    (StorageGroups.clean_path (StorageGroups.mark_as_group "x/y.jpg".toList 2) =
        "x/y.jpg".toList ∧
      StorageGroups.get_group_for_path
          (StorageGroups.mark_as_group "x/y.jpg".toList 2) = 2) :=
  ⟨by decide, by decide,
    c2_path_roundtrip "x/y.jpg".toList 2 (by decide) (by decide) (by decide)⟩

/-- C3: `clean_path` strips a string prefix, not a character set:
`clean_path "@@abc" = "@abc"` (exactly one leading `@` removed) and
`clean_path "@2/@3/x" = "@3/x"` (only the first `@2/` segment removed). -/
theorem c3_clean_path_string_prefix_strip :
    StorageGroups.clean_path "@@abc".toList = "@abc".toList ∧
    StorageGroups.clean_path "@2/@3/x".toList = "@3/x".toList := by
  constructor <;> rfl

/-- C9: re-marking a path replaces the previous group prefix instead of
stacking prefixes: for `r` not starting with `@` and `M, N ≥ 1`,
`mark_as_group (mark_as_group r M) N = mark_as_group r N`. -/
theorem c9_mark_as_group_idempotent_restamp (r : List Char) (M N : Nat)
    (hat : r.head? ≠ some '@') (hM : 1 ≤ M) (hN : 1 ≤ N) :
    StorageGroups.mark_as_group (StorageGroups.mark_as_group r M) N =
      StorageGroups.mark_as_group r N := by
  rw [StorageGroups.mark_as_group_of_no_at hat M]
  rw [StorageGroups.mark_as_group, StorageGroups.clean_path_prefix_append hM hat]
  rw [StorageGroups.mark_as_group_of_no_at hat N]

/-- Witness for C9 at `r = "a/b.png"`, `M = 3`, `N = 2`. -/
theorem c9_mark_as_group_idempotent_restamp_witness :
    ("a/b.png".toList.head? ≠ some '@') ∧
    StorageGroups.mark_as_group (StorageGroups.mark_as_group "a/b.png".toList 3) 2 =
      StorageGroups.mark_as_group "a/b.png".toList 2 :=
  ⟨by decide,
    c9_mark_as_group_idempotent_restamp "a/b.png".toList 3 2 (by decide)
      (by decide) (by decide)⟩

namespace SettingsModel

/-- `Settings.GROUP2_PATH_PREFIX` (app/core/base.py), default value `"@"`. -/
def GROUP2_PATH_PREFIX : List Char := ['@']

/-- `Settings.is_group2_path` (app/core/base.py). -/
def is_group2_path (path : List Char) : Bool :=
  if path = [] then false else GROUP2_PATH_PREFIX.isPrefixOf path

/-- `Settings.clean_path` (app/core/base.py): strip the legacy group-2
prefix string once, if present. -/
def clean_path (path : List Char) : List Char :=
  if path = [] then path
  else if GROUP2_PATH_PREFIX.isPrefixOf path then
    path.drop GROUP2_PATH_PREFIX.length
  else path

/-- `Settings.get_group_for_path` (app/core/base.py): 2 for a group-2
path, else 1. -/
def get_group_for_path (path : List Char) : Nat :=
  if is_group2_path path then 2 else 1

end SettingsModel

namespace Proxy

/-- The observable routing decisions of the daemon-streaming branch of
`get_image_proxy` (admin_endpoints.py). -/
structure StreamPlan where
  /-- The `group` argument of `get_next_daemon_url`: the daemon is drawn
  from this storage group's daemon pool. -/
  daemonGroup : Nat
  /-- Path of the upstream `GET` issued by `_stream_from_serve_daemon`:
  `f"/{file_path}"`. -/
  upstreamPath : List Char
  /-- Value of the `X-Storage-Group` response header: `str(resolved_group)`. -/
  storageGroupHeader : List Char
deriving DecidableEq

/-- Daemon-streaming branch of `get_image_proxy` (admin_endpoints.py) on an
already-validated request path.  The group is resolved by
`_get_daemon_url_for_file` via `multi_remote.get_group_for_path`, which
delegates to `settings.get_group_for_path`; the upstream path is
`"/" + settings.clean_path(validated_path)`; the header is the resolved
group number rendered by `str`. -/
def imageProxyStreamPlan (validatedPath : List Char) : StreamPlan :=
  { daemonGroup := SettingsModel.get_group_for_path validatedPath
    upstreamPath := '/' :: SettingsModel.clean_path validatedPath
    storageGroupHeader :=
      StorageGroups.natRepr (SettingsModel.get_group_for_path validatedPath) }

end Proxy

/-- C1 counterexample: for the request path `@2/x/y.jpg` the streaming
branch does route to group 2 and does emit `X-Storage-Group: 2`, but the
upstream URL path is `/2/x/y.jpg` — not `/x/y.jpg` as the claim states,
because the endpoint strips only the single legacy `@` character. -/
theorem c1_counterexample_at2 :
    (Proxy.imageProxyStreamPlan "@2/x/y.jpg".toList).daemonGroup = 2 ∧
    (Proxy.imageProxyStreamPlan "@2/x/y.jpg".toList).storageGroupHeader =
      "2".toList ∧
    (Proxy.imageProxyStreamPlan "@2/x/y.jpg".toList).upstreamPath =
      "/2/x/y.jpg".toList ∧
    (Proxy.imageProxyStreamPlan "@2/x/y.jpg".toList).upstreamPath ≠
      "/x/y.jpg".toList := by
  refine ⟨rfl, rfl, rfl, ?_⟩
  decide

/-- C1 amended: for every request `GET /proxy/@2/<rel>` served by daemon
streaming, the pipeline routes to a group-2 daemon and answers with header
`X-Storage-Group: 2`, but the upstream URL path requested from the daemon
is `/2/<rel>`: only the leading `@` (the legacy group-2 prefix) is
stripped, not the whole `@2/` segment. -/
theorem c1_amended_stream_plan (rel : List Char) :
    Proxy.imageProxyStreamPlan ('@' :: '2' :: '/' :: rel) =
      { daemonGroup := 2
        upstreamPath := '/' :: '2' :: '/' :: rel
        storageGroupHeader := ['2'] } := by
  unfold Proxy.imageProxyStreamPlan
  rw [show SettingsModel.get_group_for_path ('@' :: '2' :: '/' :: rel) = 2 from
    rfl]
  rw [show SettingsModel.clean_path ('@' :: '2' :: '/' :: rel) =
    '2' :: '/' :: rel from rfl]
  rfl

namespace MultiRemote

/-- `RemoteStatus` (multi_remote_service.py).  Timestamps (`datetime`) are
modelled as `Nat` ticks; the `serve_daemon_*` bookkeeping fields (process
handle, port, URL mirrors) carry no algorithmic content for the tracked
properties and are omitted. -/
structure RemoteStatus where
  remote_name : List Char
  is_healthy : Bool
  error_count : Nat
  last_error_time : Option Nat
  total_requests : Nat
  successful_requests : Nat
  failed_requests : Nat
  last_used : Option Nat
  quota_exceeded : Bool
  quota_reset_time : Option Nat

/-- `RemoteStatus.__init__`. -/
def RemoteStatus.init (name : List Char) : RemoteStatus :=
  { remote_name := name
    is_healthy := true
    error_count := 0
    last_error_time := none
    total_requests := 0
    successful_requests := 0
    failed_requests := 0
    last_used := none
    quota_exceeded := false
    quota_reset_time := none }

/-- `RemoteStatus.success_rate` (0-100, as an exact rational). -/
def success_rate (s : RemoteStatus) : ℚ :=
  if s.total_requests = 0 then 100
  else (s.successful_requests : ℚ) / (s.total_requests : ℚ) * 100

/-- `RemoteStatus.is_available` evaluated at time `now`.  The Python
property additionally clears an expired `quota_exceeded` flag in place;
that write never changes the Boolean returned here, and the flag is
re-derived from `quota_reset_time` on every later call. -/
def is_available (s : RemoteStatus) (now : Nat) : Bool :=
  if s.is_healthy = false then false
  else if s.quota_exceeded = true then
    match s.quota_reset_time with
    | some t => if now < t then false else true
    | none => true
  else true

/-- `timedelta(hours=24)` in ticks (seconds). -/
def quotaResetWindow : Nat := 24 * 60 * 60

/-- `RemoteStatus.mark_success` at time `now`. -/
def mark_success (s : RemoteStatus) (now : Nat) : RemoteStatus :=
  { s with
    total_requests := s.total_requests + 1
    successful_requests := s.successful_requests + 1
    last_used := some now
    error_count := 0 }

/-- `RemoteStatus.mark_failure` at time `now`. -/
def mark_failure (s : RemoteStatus) (now : Nat) (is_quota_error : Bool) :
    RemoteStatus :=
  let s1 := { s with
    total_requests := s.total_requests + 1
    failed_requests := s.failed_requests + 1
    last_error_time := some now
    error_count := s.error_count + 1 }
  let s2 := if is_quota_error then
      { s1 with
        quota_exceeded := true
        quota_reset_time := some (now + quotaResetWindow) }
    else s1
  if 5 ≤ s2.error_count then { s2 with is_healthy := false } else s2

/-- `RemoteStatus.reset_health`. -/
def reset_health (s : RemoteStatus) : RemoteStatus :=
  { s with is_healthy := true, error_count := 0 }

/-- One call of `mark_success` / `mark_failure`. -/
inductive HealthOp where
  | success (now : Nat)
  | failure (now : Nat) (isQuota : Bool)

/-- Apply one health op to a status. -/
def applyOp (s : RemoteStatus) : HealthOp → RemoteStatus
  | .success now => mark_success s now
  | .failure now q => mark_failure s now q

lemma mark_failure_counters (s : RemoteStatus) (now : Nat) (q : Bool) :
    (mark_failure s now q).total_requests = s.total_requests + 1 ∧
    (mark_failure s now q).successful_requests = s.successful_requests ∧
    (mark_failure s now q).failed_requests = s.failed_requests + 1 := by
  unfold mark_failure
  cases q <;> by_cases h5 : 5 ≤ s.error_count + 1 <;> simp [h5]

lemma counters_applyOp {s : RemoteStatus} (op : HealthOp)
    (h : s.successful_requests + s.failed_requests = s.total_requests) :
    (applyOp s op).successful_requests + (applyOp s op).failed_requests =
      (applyOp s op).total_requests := by
  cases op with
  | success now => simp [applyOp, mark_success]; omega
  | failure now q =>
      have hc := mark_failure_counters s now q
      simp only [applyOp]
      omega

lemma counters_foldl (ops : List HealthOp) (s : RemoteStatus)
    (h : s.successful_requests + s.failed_requests = s.total_requests) :
    (ops.foldl applyOp s).successful_requests +
        (ops.foldl applyOp s).failed_requests =
      (ops.foldl applyOp s).total_requests := by
  induction ops generalizing s with
  | nil => simpa using h
  | cons op rest ih => exact ih _ (counters_applyOp op h)

lemma success_rate_bounds {s : RemoteStatus}
    (h : s.successful_requests + s.failed_requests = s.total_requests) :
    0 ≤ success_rate s ∧ success_rate s ≤ 100 := by
  unfold success_rate
  split
  · norm_num
  · rename_i ht
    have htpos : (0 : ℚ) < (s.total_requests : ℚ) := by
      exact_mod_cast Nat.pos_of_ne_zero ht
    have hle : (s.successful_requests : ℚ) ≤ (s.total_requests : ℚ) := by
      exact_mod_cast (by omega : s.successful_requests ≤ s.total_requests)
    constructor
    · positivity
    · have hdiv : (s.successful_requests : ℚ) / (s.total_requests : ℚ) ≤ 1 :=
        (div_le_one htpos).mpr hle
      nlinarith

end MultiRemote

/-- C8: starting from a fresh `RemoteStatus`, after any sequence of
`mark_success` / `mark_failure` calls, `successful_requests +
failed_requests = total_requests`, and `success_rate` always lies in
`[0, 100]`. -/
theorem c8_health_counter_invariant (name : List Char)
    (ops : List MultiRemote.HealthOp) :
    ((ops.foldl MultiRemote.applyOp
          (MultiRemote.RemoteStatus.init name)).successful_requests +
        (ops.foldl MultiRemote.applyOp
          (MultiRemote.RemoteStatus.init name)).failed_requests =
      (ops.foldl MultiRemote.applyOp
          (MultiRemote.RemoteStatus.init name)).total_requests) ∧
    0 ≤ MultiRemote.success_rate
        (ops.foldl MultiRemote.applyOp (MultiRemote.RemoteStatus.init name)) ∧
    MultiRemote.success_rate
        (ops.foldl MultiRemote.applyOp (MultiRemote.RemoteStatus.init name)) ≤
      100 := by
  have hinv := MultiRemote.counters_foldl ops (MultiRemote.RemoteStatus.init name)
    (by simp [MultiRemote.RemoteStatus.init])
  exact ⟨hinv, MultiRemote.success_rate_bounds hinv⟩

namespace MultiRemote

/-- Per-group state `self._groups[group]` of `MultiRemoteService`:
the insertion-ordered keys of `g["remotes"]`, the `g["status"]` table
(one `RemoteStatus` per remote name), and the round-robin cursor
`g["rr_index"]`.  The daemon-URL cache fields are not needed for the
selection logic modelled here. -/
structure GroupState where
  remotes : List (List Char)
  status : List Char → RemoteStatus
  rr_index : Nat

/-- The `available` list computed inside `get_next_remote`: the remotes
whose status passes `is_available`, in `g["remotes"]` iteration order. -/
def availableNames (g : GroupState) (now : Nat) : List (List Char) :=
  g.remotes.filter (fun n => is_available (g.status n) now)

/-- The 10-minute threshold of `_auto_recover_remotes`, in ticks. -/
def recoveryWindow : Nat := 10 * 60

/-- `_auto_recover_remotes`: reset the health of every unhealthy remote
whose last error is older than the recovery threshold. -/
def auto_recover_remotes (g : GroupState) (now : Nat) : GroupState :=
  { g with status := fun n =>
      let s := g.status n
      if s.is_healthy = false then
        match s.last_error_time with
        | some t => if t + recoveryWindow < now then reset_health s else s
        | none => s
      else s }

/-- The selection strategies accepted by `get_next_remote`; any other
strategy string falls back to round-robin (`unknown`). -/
inductive Strategy where
  | round_robin
  | weighted
  | random
  | least_used
  | unknown

/-- `_round_robin_select`. -/
def round_robin_select (g : GroupState) (available : List (List Char))
    (h : available ≠ []) : List Char × GroupState :=
  (available.get ⟨g.rr_index % available.length,
      Nat.mod_lt _ (List.length_pos.mpr h)⟩,
    { g with rr_index := (g.rr_index + 1) % available.length })

/-- The weight list of `_weighted_select`: one `success_rate` per
available remote. -/
def weightedWeights (g : GroupState) (available : List (List Char)) :
    List ℚ :=
  available.map (fun n => success_rate (g.status n))

/-- `_weighted_select`.  Both the zero-total `random.choice` branch and
the `random.choices` draw return an index below `len(available)`; the
sampled position is supplied by the `pick` oracle. -/
def weighted_select (g : GroupState) (available : List (List Char))
    (h : available ≠ []) (pick : Nat) : List Char × GroupState :=
  if (weightedWeights g available).sum = 0 then
    (available.get ⟨pick % available.length,
      Nat.mod_lt _ (List.length_pos.mpr h)⟩, g)
  else
    (available.get ⟨pick % available.length,
      Nat.mod_lt _ (List.length_pos.mpr h)⟩, g)

/-- `_least_used_select`: Python's stable `sorted(...)[0]`, i.e. the
first remote minimizing `total_requests`. -/
def least_used_select (g : GroupState) (available : List (List Char))
    (h : available ≠ []) : List Char × GroupState :=
  (match hm : available.argmin (fun n => (g.status n).total_requests) with
    | some n => n
    | none => absurd (List.argmin_eq_none.mp hm) h, g)

/-- The pool `get_next_remote` selects from: the available remotes,
refreshed by one `_auto_recover_remotes` pass when the first filter came
back empty. -/
def selectionPool (g : GroupState) (now : Nat) : List (List Char) :=
  if availableNames g now = [] then
    availableNames (auto_recover_remotes g now) now
  else availableNames g now

/-- The group state the selection is made on (post-recovery when the
first filter came back empty). -/
def selectionState (g : GroupState) (now : Nat) : GroupState :=
  if availableNames g now = [] then auto_recover_remotes g now else g

/-- `get_next_remote(strategy, group)` on the state of one group: filter
the available remotes, run one auto-recovery pass if none are available,
raise (`none`) if still none, otherwise dispatch on the strategy.
`random.choice` is modelled by the `pick` oracle. -/
def get_next_remote (g : GroupState) (strategy : Strategy) (pick now : Nat) :
    Option (List Char × GroupState) :=
  if h : selectionPool g now = [] then none
  else
    match strategy with
    | .round_robin => some (round_robin_select (selectionState g now)
        (selectionPool g now) h)
    | .weighted => some (weighted_select (selectionState g now)
        (selectionPool g now) h pick)
    | .random => some ((selectionPool g now).get
        ⟨pick % (selectionPool g now).length,
          Nat.mod_lt _ (List.length_pos.mpr h)⟩, selectionState g now)
    | .least_used => some (least_used_select (selectionState g now)
        (selectionPool g now) h)
    | .unknown => some (round_robin_select (selectionState g now)
        (selectionPool g now) h)

end MultiRemote

/-- C10: a never-used remote (zero `total_requests`) has `success_rate`
exactly 100, and therefore the weighted load-balancing strategy assigns
it the perfect weight 100 in its weight list. -/
theorem c10_fresh_remote_perfect_weight (g : MultiRemote.GroupState)
    (available : List (List Char)) (i : Fin available.length)
    (h : (g.status (available.get i)).total_requests = 0) :
    MultiRemote.success_rate (g.status (available.get i)) = 100 ∧
    (MultiRemote.weightedWeights g available).get
        ⟨i.val, by simpa [MultiRemote.weightedWeights] using i.isLt⟩ = 100 := by
  have hrate : MultiRemote.success_rate (g.status (available.get i)) = 100 := by
    unfold MultiRemote.success_rate
    rw [h]
    norm_num
  refine ⟨hrate, ?_⟩
  have hmap : (MultiRemote.weightedWeights g available).get
      ⟨i.val, by simpa [MultiRemote.weightedWeights] using i.isLt⟩ =
      MultiRemote.success_rate (g.status (available.get i)) := by
    simp only [MultiRemote.weightedWeights, List.get_map]
  rw [hmap, hrate]

/-- Witness for C10: a group with one fresh remote. -/
theorem c10_fresh_remote_perfect_weight_witness :
    ((MultiRemote.GroupState.mk ["r".toList]
          (fun n => MultiRemote.RemoteStatus.init n) 0).status
        (["r".toList].get ⟨0, by decide⟩)).total_requests = 0 ∧
    (MultiRemote.success_rate
        ((MultiRemote.GroupState.mk ["r".toList]
            (fun n => MultiRemote.RemoteStatus.init n) 0).status
          (["r".toList].get ⟨0, by decide⟩)) = 100 ∧
      (MultiRemote.weightedWeights
          (MultiRemote.GroupState.mk ["r".toList]
            (fun n => MultiRemote.RemoteStatus.init n) 0)
          ["r".toList]).get ⟨0, by simp [MultiRemote.weightedWeights]⟩ = 100) :=
  ⟨rfl,
    c10_fresh_remote_perfect_weight
      (MultiRemote.GroupState.mk ["r".toList]
        (fun n => MultiRemote.RemoteStatus.init n) 0)
      ["r".toList] ⟨0, by decide⟩ rfl⟩

namespace MultiRemote

lemma availableNames_selectionState (g : GroupState) (now : Nat) :
    availableNames (selectionState g now) now = selectionPool g now := by
  unfold selectionPool selectionState
  split <;> rfl

lemma get_next_remote_mem {g : GroupState} {strategy : Strategy}
    {pick now : Nat} {nm : List Char} {gq : GroupState}
    (h : get_next_remote g strategy pick now = some (nm, gq)) :
    nm ∈ selectionPool g now := by
  unfold get_next_remote at h
  split at h
  · exact Option.noConfusion h
  · rename_i hne
    cases strategy
    case round_robin =>
      have hp := Option.some.inj h
      have h1 : (round_robin_select (selectionState g now)
          (selectionPool g now) hne).1 = nm := by rw [hp]
      rw [← h1]
      exact List.get_mem _ _ _
    case weighted =>
      have hp := Option.some.inj h
      have h1 : (weighted_select (selectionState g now)
          (selectionPool g now) hne pick).1 = nm := by rw [hp]
      rw [← h1]
      unfold weighted_select
      split <;> exact List.get_mem _ _ _
    case random =>
      have hp := Option.some.inj h
      have h1 := congrArg Prod.fst hp
      dsimp only [] at h1
      rw [← h1]
      exact List.get_mem _ _ _
    case least_used =>
      have hp := Option.some.inj h
      have h1 : (least_used_select (selectionState g now)
          (selectionPool g now) hne).1 = nm := by rw [hp]
      rw [← h1]
      unfold least_used_select
      split
      · rename_i n hm
        exact List.argmin_mem hm
      · rename_i hm
        exact absurd (List.argmin_eq_none.mp hm) hne
    case unknown =>
      have hp := Option.some.inj h
      have h1 : (round_robin_select (selectionState g now)
          (selectionPool g now) hne).1 = nm := by rw [hp]
      rw [← h1]
      exact List.get_mem _ _ _

lemma auto_recover_preserves_quota (g : GroupState) (now : Nat)
    (n : List Char) :
    ((auto_recover_remotes g now).status n).quota_exceeded =
        (g.status n).quota_exceeded ∧
    ((auto_recover_remotes g now).status n).quota_reset_time =
        (g.status n).quota_reset_time := by
  unfold auto_recover_remotes
  dsimp only []
  split
  · split
    · split <;> simp [reset_health]
    · simp
  · simp

lemma is_available_false_of_quota {s : RemoteStatus} {now t : Nat}
    (hq : s.quota_exceeded = true) (hr : s.quota_reset_time = some t)
    (hlt : now < t) : is_available s now = false := by
  unfold is_available
  rw [hq, hr]
  split
  · rfl
  · simp [hlt]

end MultiRemote

/-- C4: every remote returned by `get_next_remote` passes `is_available`
on the state it was selected from; in particular a remote whose status
has `quota_exceeded` set with a `quota_reset_time` still in the future is
never returned. -/
theorem c4_selected_remote_is_available (g : MultiRemote.GroupState)
    (strategy : MultiRemote.Strategy) (pick now : Nat) (nm : List Char)
    (g' : MultiRemote.GroupState)
    (hsel : MultiRemote.get_next_remote g strategy pick now = some (nm, g')) :
    MultiRemote.is_available
        ((MultiRemote.selectionState g now).status nm) now = true ∧
    ((g.status nm).quota_exceeded = true →
      ∀ t, (g.status nm).quota_reset_time = some t → ¬ now < t) := by
  have hmem := MultiRemote.get_next_remote_mem hsel
  rw [← MultiRemote.availableNames_selectionState] at hmem
  have havail : MultiRemote.is_available
      ((MultiRemote.selectionState g now).status nm) now = true := by
    unfold MultiRemote.availableNames at hmem
    exact (List.mem_filter.mp hmem).2
  refine ⟨havail, ?_⟩
  intro hq t hr hlt
  have hpres : ((MultiRemote.selectionState g now).status nm).quota_exceeded =
      (g.status nm).quota_exceeded ∧
      ((MultiRemote.selectionState g now).status nm).quota_reset_time =
        (g.status nm).quota_reset_time := by
    unfold MultiRemote.selectionState
    split
    · exact MultiRemote.auto_recover_preserves_quota g now nm
    · exact ⟨rfl, rfl⟩
  have hfalse := MultiRemote.is_available_false_of_quota
    (s := (MultiRemote.selectionState g now).status nm)
    (hpres.1.trans hq) (hpres.2.trans hr) hlt
  rw [havail] at hfalse
  exact Bool.true_eq_false.mp hfalse

/-- Demo group for the C4 witness: remote `a` is quota-blocked until tick
1000, remote `b` is fresh. -/
def quotaBlockedDemoGroup : MultiRemote.GroupState :=
  { remotes := ["a".toList, "b".toList]
    status := fun n =>
      if n = "a".toList then
        { MultiRemote.RemoteStatus.init "a".toList with
            quota_exceeded := true
            quota_reset_time := some 1000 }
      else MultiRemote.RemoteStatus.init n
    rr_index := 0 }

/-- Witness for C4: at tick 5 the quota-blocked remote `a` is skipped and
`b` is selected. -/
theorem c4_selected_remote_is_available_witness :
    MultiRemote.get_next_remote quotaBlockedDemoGroup .round_robin 0 5 =
      some ("b".toList, quotaBlockedDemoGroup) ∧
    (MultiRemote.is_available
        ((MultiRemote.selectionState quotaBlockedDemoGroup 5).status
          "b".toList) 5 = true ∧
      ((quotaBlockedDemoGroup.status "b".toList).quota_exceeded = true →
        ∀ t, (quotaBlockedDemoGroup.status "b".toList).quota_reset_time =
          some t → ¬ (5 : Nat) < t)) :=
  ⟨rfl, c4_selected_remote_is_available quotaBlockedDemoGroup .round_robin 0 5
    "b".toList quotaBlockedDemoGroup rfl⟩

namespace MultiRemote

/-- A sequence of consecutive `get_next_remote(round_robin)` calls, one
per tick in `nows`, collecting the selected remote names. -/
def runRoundRobin (g : GroupState) : List Nat → List (List Char) × GroupState
  | [] => ([], g)
  | now :: rest =>
      match get_next_remote g .round_robin 0 now with
      | some (name, g1) =>
          let r := runRoundRobin g1 rest
          (name :: r.1, r.2)
      | none => ([], g)

lemma get_congr {α : Type} (A : List α) {i j : Nat} (h : i = j)
    (hi : i < A.length) (hj : j < A.length) :
    A.get ⟨i, hi⟩ = A.get ⟨j, hj⟩ := by subst h; rfl

lemma rr_step {g : GroupState} {A : List (List Char)} {now : Nat}
    (hA : availableNames g now = A) (hne : A ≠ []) :
    get_next_remote g .round_robin 0 now =
      some (A.get ⟨g.rr_index % A.length,
          Nat.mod_lt _ (List.length_pos.mpr hne)⟩,
        { g with rr_index := (g.rr_index + 1) % A.length }) := by
  have hpool : selectionPool g now = A := by
    unfold selectionPool
    rw [hA, if_neg hne]
  have hstate : selectionState g now = g := by
    unfold selectionState
    rw [hA, if_neg hne]
  subst hpool
  unfold get_next_remote
  rw [dif_neg hne]
  unfold round_robin_select
  simp only [hstate]

lemma runRoundRobin_names {A : List (List Char)} (hne : A ≠ []) :
    ∀ (nows : List Nat) (g : GroupState),
      (∀ now ∈ nows, availableNames g now = A) →
      (runRoundRobin g nows).1 =
        List.ofFn (fun j : Fin nows.length =>
          A.get ⟨(g.rr_index + j.val) % A.length,
            Nat.mod_lt _ (List.length_pos.mpr hne)⟩) := by
  intro nows
  induction nows with
  | nil => intro g _; simp [runRoundRobin]
  | cons now rest ih =>
      intro g hAll
      have hA : availableNames g now = A := hAll now (List.mem_cons_self _ _)
      rw [runRoundRobin, rr_step hA hne]
      dsimp only []
      have hAll2 : ∀ n ∈ rest,
          availableNames { g with rr_index := (g.rr_index + 1) % A.length } n
            = A := fun n hn => hAll n (List.mem_cons_of_mem _ hn)
      rw [ih _ hAll2]
      rw [List.ofFn_succ]
      refine congrArg₂ List.cons ?_ ?_
      · exact get_congr _ (by simp) _ _
      · refine congrArg List.ofFn (funext fun j => ?_)
        refine get_congr _ ?_ _ _
        dsimp only []
        rw [Nat.mod_add_mod]
        congr 1
        simp [Fin.val_succ]
        omega

end MultiRemote

/-- C5: in a group whose set of `K` available remotes is the same list
`A` at each of `K` consecutive `get_next_remote(round_robin)` calls, the
calls return each available remote exactly once (the selections are a
permutation of `A`). -/
theorem c5_round_robin_fairness (g : MultiRemote.GroupState)
    (nows : List Nat) (A : List (List Char))
    (hA : ∀ now ∈ nows, MultiRemote.availableNames g now = A)
    (hlen : nows.length = A.length) (hnd : A.Nodup) (hne : A ≠ []) :
    List.Perm (MultiRemote.runRoundRobin g nows).1 A ∧
    ∀ a ∈ A, @List.count (List Char) instBEqOfDecidableEq a
      (MultiRemote.runRoundRobin g nows).1 = 1 := by
  have hrot : (MultiRemote.runRoundRobin g nows).1 = A.rotate g.rr_index := by
    rw [MultiRemote.runRoundRobin_names hne nows g hA]
    apply List.ext_get
    · simp [hlen]
    · intro i h1 h2
      rw [List.get_ofFn, List.get_rotate]
      apply MultiRemote.get_congr
      simp only [Fin.coe_cast]
      exact congrArg (fun x => x % A.length) (Nat.add_comm _ _)
  have hperm : List.Perm (MultiRemote.runRoundRobin g nows).1 A := by
    rw [hrot]
    exact List.rotate_perm A g.rr_index
  refine ⟨hperm, fun a ha => ?_⟩
  exact (hperm.count_eq a).trans (List.count_eq_one_of_mem hnd ha)

/-- Demo group for the C5 witness: two fresh remotes, both available. -/
def rrFairnessDemoGroup : MultiRemote.GroupState :=
  { remotes := ["a".toList, "b".toList]
    status := fun n => MultiRemote.RemoteStatus.init n
    rr_index := 0 }

/-- Witness for C5: two consecutive calls on a two-remote group select
each remote exactly once. -/
theorem c5_round_robin_fairness_witness :
    (∀ now ∈ [0, 1], MultiRemote.availableNames rrFairnessDemoGroup now =
      ["a".toList, "b".toList]) ∧
    ([0, 1].length = ["a".toList, "b".toList].length) ∧
    (["a".toList, "b".toList].Nodup) ∧
    (List.Perm (MultiRemote.runRoundRobin rrFairnessDemoGroup [0, 1]).1
        ["a".toList, "b".toList] ∧
      ∀ a ∈ ["a".toList, "b".toList],
        @List.count (List Char) instBEqOfDecidableEq a
          (MultiRemote.runRoundRobin rrFairnessDemoGroup [0, 1]).1 = 1) :=
  ⟨by decide, by decide, by decide,
    c5_round_robin_fairness rrFairnessDemoGroup [0, 1]
      ["a".toList, "b".toList] (by decide) (by decide) (by decide) (by decide)⟩

namespace Rclone

/-- A process environment: the insertion-ordered `(name, value)` pairs of
`os.environ` or of the dict handed to `subprocess` via `env=`. -/
abbrev Env := List (List Char × List Char)

/-- The reserved variable-name prefix scrubbed by `_clean_env_for_rclone`. -/
def RCLONE_VAR_PREFIX : List Char := "RCLONE_".toList

/-- `_clean_env_for_rclone` (rclone_service.py): a copy of the parent
environment with every `RCLONE_*` variable deleted; remaining entries are
untouched and keep their order. -/
def _clean_env_for_rclone (parent : Env) : Env :=
  parent.filter (fun kv => ! RCLONE_VAR_PREFIX.isPrefixOf kv.1)

/-- Environment handed to `subprocess.run` by `RcloneService._run_command`
(`env=clean_env`). -/
def run_command_env (parent : Env) : Env := _clean_env_for_rclone parent

/-- Environment handed to the `serve http` daemon `Popen`
(`env=clean_env`). -/
def serve_daemon_env (parent : Env) : Env := _clean_env_for_rclone parent

/-- Environment handed to the bulk folder-upload `subprocess.run`
(`env=clean_env`). -/
def upload_folder_env (parent : Env) : Env := _clean_env_for_rclone parent

/-- Environment received by the `rclone version` probe in
`_validate_rclone_installation` (rclone_service.py): `subprocess.run` is
invoked without `env=`, so the child inherits the parent environment
unchanged. -/
def validate_installation_env (parent : Env) : Env := parent

/-- Environment received by the thumbnail `rclone rcat` upload
(thumbnail_service.py): `subprocess.run` is invoked without `env=`, so
the child inherits the parent environment unchanged. -/
def thumbnail_rcat_env (parent : Env) : Env := parent

end Rclone

/-- C7: the centralized scrub `_clean_env_for_rclone` does drop every
`RCLONE_*` variable and keep all others unchanged, but two rclone spawn
sites bypass it: on a parent environment carrying `RCLONE_TIMEOUT=30`,
the thumbnail `rcat` upload and the `rclone version` probe pass the
variable through to the child. -/
theorem c7_env_scrub_not_universal :
    Rclone._clean_env_for_rclone
        [("RCLONE_TIMEOUT".toList, "30".toList),
          ("RCLONE_CONFIG".toList, "/tmp/r.conf".toList),
          ("PATH".toList, "/usr/bin".toList),
          ("HOME".toList, "/root".toList)] =
      [("PATH".toList, "/usr/bin".toList),
        ("HOME".toList, "/root".toList)] ∧
    Rclone.thumbnail_rcat_env
        [("RCLONE_TIMEOUT".toList, "30".toList),
          ("PATH".toList, "/usr/bin".toList)] =
      [("RCLONE_TIMEOUT".toList, "30".toList),
        ("PATH".toList, "/usr/bin".toList)] ∧
    Rclone.validate_installation_env
        [("RCLONE_TIMEOUT".toList, "30".toList),
          ("PATH".toList, "/usr/bin".toList)] =
      [("RCLONE_TIMEOUT".toList, "30".toList),
        ("PATH".toList, "/usr/bin".toList)] := by
  refine ⟨?_, rfl, rfl⟩
  decide

namespace StorageGroups

/-- One entry of `GroupQuotaTracker._group_state`. -/
structure GState where
  uploaded_bytes : Nat
  is_full : Bool
  full_since : Option Nat
  quota_bytes : Nat

/-- `GroupQuotaTracker._group_state` as an insertion-ordered association
list from group number to per-group state. -/
abbrev TrackerState := List (Nat × GState)

/-- `_get_all_configured_groups`: scan groups 1..19 in order, stop at the
first unconfigured one, fall back to `[1]` when nothing is configured.
`isConfigured g` models `_get_group_config(g) is not None`. -/
def configuredGroups (isConfigured : Nat → Bool) : List Nat :=
  if (List.range' 1 19).takeWhile isConfigured = [] then [1]
  else (List.range' 1 19).takeWhile isConfigured

/-- `_read_active_group_file`: the state file holds `str(v)`; the reader
returns the parsed value only when it is ≥ 1. -/
def read_active_group_file (file : Option Nat) : Option Nat :=
  match file with
  | none => none
  | some v => if 1 ≤ v then some v else none

/-- Fresh per-group state laid down by `_init_groups` before the
restore step (`quotaGb g` models `cfg["quota_gb"]`). -/
def freshGState (quotaGb : Nat → Nat) (g : Nat) : GState :=
  { uploaded_bytes := 0
    is_full := false
    full_since := none
    quota_bytes := if 0 < quotaGb g then quotaGb g * (1024 * 1024 * 1024)
      else 0 }

/-- `GroupQuotaTracker._init_groups`: build fresh state for every
configured group, then restore the persisted active group by marking
every earlier group full (at `datetime.now()`, modelled by `now`). -/
def initGroups (isConfigured : Nat → Bool) (quotaGb : Nat → Nat)
    (file : Option Nat) (now : Nat) : TrackerState :=
  let base := (configuredGroups isConfigured).map
    (fun g => (g, freshGState quotaGb g))
  match read_active_group_file file with
  | some s =>
      if 1 < s ∧ s ∈ base.map Prod.fst then
        base.map (fun p =>
          if p.1 < s then
            (p.1, { p.2 with is_full := true, full_since := some now })
          else p)
      else base
  | none => base

/-- `GroupQuotaTracker.mark_group_full`: mark an existing entry full (a
no-op if already full), or append a new already-full entry. -/
def markGroupFull (st : TrackerState) (g now : Nat) : TrackerState :=
  if g ∈ st.map Prod.fst then
    st.map (fun p =>
      if p.1 = g ∧ p.2.is_full = false then
        (p.1, { p.2 with is_full := true, full_since := some now })
      else p)
  else
    st ++ [(g,
      { uploaded_bytes := 0
        is_full := true
        full_since := some now
        quota_bytes := 0 })]

/-- `GroupQuotaTracker.reset`: zero the counters of an existing entry. -/
def resetGroup (st : TrackerState) (g : Nat) : TrackerState :=
  st.map (fun p =>
    if p.1 = g then
      (p.1,
        { p.2 with
            uploaded_bytes := 0
            is_full := false
            full_since := none })
    else p)

/-- `self._group_state[g]["is_full"]` looked up in the association list
(every group consulted by the code is present). -/
def isFullIn (st : TrackerState) (g : Nat) : Bool :=
  match st.find? (fun p => p.1 = g) with
  | some p => p.2.is_full
  | none => false

/-- `GroupQuotaTracker.get_active_upload_group`: with auto-switch off,
return the file-persisted group when it is valid and known; with
auto-switch on, return the first configured group that is not full,
falling back to the last configured group. -/
def get_active_upload_group (autoSwitch : Bool) (file : Option Nat)
    (st : TrackerState) : Nat :=
  if autoSwitch = false then
    match read_active_group_file file with
    | some s => if 1 ≤ s ∧ s ∈ st.map Prod.fst then s else 1
    | none => 1
  else
    match ((st.map Prod.fst).mergeSort (fun a b => decide (a ≤ b))).find?
        (fun g => ! isFullIn st g) with
    | some g => g
    | none =>
        match ((st.map Prod.fst).mergeSort
            (fun a b => decide (a ≤ b))).getLast? with
        | some g => g
        | none => 1

/-- Result of `StorageGroupService.switch_upload_group`: success flag,
tracker state after the mark/reset loop, and the persisted state file. -/
structure SwitchResult where
  success : Bool
  state : TrackerState
  file : Option Nat

/-- `StorageGroupService.switch_upload_group(group)`: refuse an
unconfigured group; otherwise mark every earlier configured group full,
reset the target group, and persist the target group to the state file.
(The call into `settings.set_active_upload_group` mutates module state
in base.py that `GroupQuotaTracker.get_active_upload_group` never
reads; it is not part of the tracker state.) -/
def switch_upload_group (isConfigured : Nat → Bool) (st : TrackerState)
    (file : Option Nat) (group now : Nat) : SwitchResult :=
  if group ∈ configuredGroups isConfigured then
    { success := true
      state := (configuredGroups isConfigured).foldl (fun acc g =>
        if g < group then markGroupFull acc g now
        else if g = group then resetGroup acc g
        else acc) st
      file := some group }
  else { success := false, state := st, file := file }

lemma configuredGroups_pairwise (isConfigured : Nat → Bool) :
    (configuredGroups isConfigured).Pairwise (· < ·) := by
  unfold configuredGroups
  split
  · simp
  · exact List.Pairwise.sublist (List.takeWhile_sublist _)
      (List.pairwise_lt_range' 1 19)

lemma configuredGroups_ge_one (isConfigured : Nat → Bool) :
    ∀ g ∈ configuredGroups isConfigured, 1 ≤ g := by
  intro g hg
  unfold configuredGroups at hg
  split at hg
  · simp at hg
    omega
  · have hr := (List.takeWhile_sublist isConfigured).subset hg
    obtain ⟨i, -, hi⟩ := List.mem_range'.mp hr
    omega

lemma configuredGroups_head (isConfigured : Nat → Bool) :
    ∃ t, configuredGroups isConfigured = 1 :: t := by
  unfold configuredGroups
  split
  · exact ⟨[], rfl⟩
  · rename_i h
    rw [show List.range' 1 19 = 1 :: List.range' 2 18 from rfl] at h ⊢
    rw [List.takeWhile_cons] at h ⊢
    by_cases hc : isConfigured 1 = true
    · rw [if_pos hc]
      exact ⟨_, rfl⟩
    · rw [if_neg hc] at h
      exact absurd rfl h

end StorageGroups

namespace StorageGroups

lemma find?_eq_of_agree {α : Type} {p q : α → Bool} :
    ∀ {l : List α}, (∀ x ∈ l, p x = q x) → l.find? p = l.find? q := by
  intro l
  induction l with
  | nil => intro _; rfl
  | cons a t ih =>
      intro hag
      have ha : p a = q a := hag a (List.mem_cons_self _ _)
      simp only [List.find?, ha]
      cases q a
      · exact ih (fun x hx => hag x (List.mem_cons_of_mem _ hx))
      · rfl

lemma keys_map_pair (f : Nat → GState) (C : List Nat) :
    (C.map (fun x => (x, f x))).map Prod.fst = C := by
  induction C with
  | nil => rfl
  | cons a t ih => simp only [List.map_cons, ih]

lemma isFullIn_map (f : Nat → GState) :
    ∀ {C : List Nat} {g : Nat}, g ∈ C →
      isFullIn (C.map (fun x => (x, f x))) g = (f g).is_full := by
  intro C
  induction C with
  | nil => intro g hg; cases hg
  | cons a t ih =>
      intro g hg
      by_cases hag : a = g
      · subst hag
        simp [isFullIn, List.find?]
      · rcases List.mem_cons.mp hg with rfl | hmem
        · exact absurd rfl hag
        · have htail := ih hmem
          have hd : (decide (a = g)) = false := by simp [hag]
          simp only [isFullIn, List.map_cons, List.find?] at htail ⊢
          simp only [hd]
          exact htail

lemma initGroups_of_one (isConfigured : Nat → Bool) (quotaGb : Nat → Nat)
    (now : Nat) :
    initGroups isConfigured quotaGb (some 1) now =
      (configuredGroups isConfigured).map
        (fun g => (g, freshGState quotaGb g)) := by
  unfold initGroups read_active_group_file
  simp

lemma initGroups_marked (isConfigured : Nat → Bool) (quotaGb : Nat → Nat)
    {N : Nat} (now : Nat) (hN1 : 1 < N)
    (hmem : N ∈ configuredGroups isConfigured) :
    initGroups isConfigured quotaGb (some N) now =
      (configuredGroups isConfigured).map (fun g =>
        (g, if g < N then
            { freshGState quotaGb g with
                is_full := true
                full_since := some now }
          else freshGState quotaGb g)) := by
  have hread : read_active_group_file (some N) = some N := by
    unfold read_active_group_file
    dsimp only []
    rw [if_pos (by omega : 1 ≤ N)]
  unfold initGroups
  rw [hread]
  dsimp only []
  rw [keys_map_pair]
  rw [if_pos ⟨hN1, hmem⟩]
  rw [List.map_map]
  refine List.map_congr_left (fun g hg => ?_)
  by_cases hlt : g < N <;> simp [hlt]

lemma initGroups_keys (isConfigured : Nat → Bool) (quotaGb : Nat → Nat)
    {N : Nat} (now : Nat) (hN : N ∈ configuredGroups isConfigured)
    (hN0 : 1 ≤ N) :
    (initGroups isConfigured quotaGb (some N) now).map Prod.fst =
      configuredGroups isConfigured := by
  by_cases hN1 : 1 < N
  · rw [initGroups_marked isConfigured quotaGb now hN1 hN]
    exact keys_map_pair _ _
  · have hNe : N = 1 := by omega
    subst hNe
    rw [initGroups_of_one]
    exact keys_map_pair _ _

lemma find?_first_ge {N : Nat} :
    ∀ {l : List Nat}, l.Pairwise (· < ·) → N ∈ l →
      l.find? (fun g => decide (N ≤ g)) = some N := by
  intro l
  induction l with
  | nil => intro _ hmem; cases hmem
  | cons a t ih =>
      intro hs hmem
      rcases List.mem_cons.mp hmem with rfl | hmem'
      · simp [List.find?]
      · have ha : a < N := (List.pairwise_cons.mp hs).1 N hmem'
        have hna : decide (N ≤ a) = false := by
          simp [Nat.not_le.mpr ha]
        simp only [List.find?, hna]
        exact ih (List.pairwise_cons.mp hs).2 hmem'

end StorageGroups

/-- C6: after `switch_upload_group(N)` succeeds for a configured group
`N`, the persisted state file holds `N`, and a restarted tracker whose
`_init_groups` restores from that file answers `N` from
`get_active_upload_group`, with auto-switch either on or off. -/
theorem c6_active_group_persists (isConfigured : Nat → Bool)
    (quotaGb : Nat → Nat) (st : StorageGroups.TrackerState)
    (file0 : Option Nat) (N now now2 : Nat) (autoSwitch : Bool)
    (hN : N ∈ StorageGroups.configuredGroups isConfigured) :
    (StorageGroups.switch_upload_group isConfigured st file0 N now).success =
      true ∧
    (StorageGroups.switch_upload_group isConfigured st file0 N now).file =
      some N ∧
    StorageGroups.get_active_upload_group autoSwitch
      (StorageGroups.switch_upload_group isConfigured st file0 N now).file
      (StorageGroups.initGroups isConfigured quotaGb
        (StorageGroups.switch_upload_group isConfigured st file0 N now).file
        now2) = N := by
  have hge1 : 1 ≤ N := StorageGroups.configuredGroups_ge_one isConfigured N hN
  have hfile : (StorageGroups.switch_upload_group isConfigured st file0 N
      now).file = some N := by
    unfold StorageGroups.switch_upload_group
    rw [if_pos hN]
  have hsucc : (StorageGroups.switch_upload_group isConfigured st file0 N
      now).success = true := by
    unfold StorageGroups.switch_upload_group
    rw [if_pos hN]
  refine ⟨hsucc, hfile, ?_⟩
  rw [hfile]
  have hread : StorageGroups.read_active_group_file (some N) = some N := by
    unfold StorageGroups.read_active_group_file
    dsimp only []
    rw [if_pos hge1]
  have hkeys : (StorageGroups.initGroups isConfigured quotaGb (some N)
        now2).map Prod.fst = StorageGroups.configuredGroups isConfigured :=
    StorageGroups.initGroups_keys isConfigured quotaGb now2 hN hge1
  unfold StorageGroups.get_active_upload_group
  cases autoSwitch with
  | false =>
      rw [if_pos rfl, hread]
      dsimp only []
      rw [hkeys]
      rw [if_pos ⟨hge1, hN⟩]
  | true =>
      rw [if_neg (by simp)]
      have hpw := StorageGroups.configuredGroups_pairwise isConfigured
      have hsorted : List.Sorted (fun a b => a ≤ b)
          (StorageGroups.configuredGroups isConfigured) :=
        hpw.imp (fun h => Nat.le_of_lt h)
      rw [hkeys, List.mergeSort_eq_self hsorted]
      by_cases hN1 : 1 < N
      · have hpred : ∀ g ∈ StorageGroups.configuredGroups isConfigured,
            (! StorageGroups.isFullIn (StorageGroups.initGroups isConfigured
              quotaGb (some N) now2) g) = decide (N ≤ g) := by
          intro g hg
          rw [StorageGroups.initGroups_marked isConfigured quotaGb now2 hN1 hN]
          rw [StorageGroups.isFullIn_map _ hg]
          by_cases hlt : g < N
          · simp only [if_pos hlt]
            simp [Nat.not_le.mpr hlt]
          · simp only [if_neg hlt]
            simp [StorageGroups.freshGState, Nat.not_lt.mp hlt]
        rw [StorageGroups.find?_eq_of_agree hpred,
          StorageGroups.find?_first_ge hpw hN]
      · have hNe : N = 1 := by omega
        subst hNe
        obtain ⟨t, ht⟩ := StorageGroups.configuredGroups_head isConfigured
        have h1mem : (1 : Nat) ∈ StorageGroups.configuredGroups isConfigured :=
          ht ▸ List.mem_cons_self _ _
        have hfull : StorageGroups.isFullIn (StorageGroups.initGroups
            isConfigured quotaGb (some 1) now2) 1 = false := by
          rw [StorageGroups.initGroups_of_one,
            StorageGroups.isFullIn_map _ h1mem]
          rfl
        rw [ht]
        simp [List.find?, hfull]

/-- Witness for C6: three configured groups, switch to group 2, restart
with auto-switch on. -/
theorem c6_active_group_persists_witness :
    (2 ∈ StorageGroups.configuredGroups (fun g => decide (g ≤ 3))) ∧
    ((StorageGroups.switch_upload_group (fun g => decide (g ≤ 3)) [] none 2
        0).success = true ∧
      (StorageGroups.switch_upload_group (fun g => decide (g ≤ 3)) [] none 2
        0).file = some 2 ∧
      StorageGroups.get_active_upload_group true
        (StorageGroups.switch_upload_group (fun g => decide (g ≤ 3)) [] none 2
          0).file
        (StorageGroups.initGroups (fun g => decide (g ≤ 3)) (fun _ => 0)
          (StorageGroups.switch_upload_group (fun g => decide (g ≤ 3)) [] none
            2 0).file 7) = 2) :=
  ⟨by decide,
    c6_active_group_persists (fun g => decide (g ≤ 3)) (fun _ => 0) [] none
      2 0 7 true (by decide)⟩
